import Mathlib

/-!
# Verification of the search-everywhere indexing/ranking engine

A shallow embedding of the core data model and algorithms of the
`search-everywhere` extension, translated from the TypeScript source:

* `src/core/types.ts` — item variants and their fields,
* `src/core/search-service.ts` — deduplication, merge, ranking (sort + boost),
  and the `refreshIndex` single-flight concurrency discipline,
* `src/providers/file-provider.ts`, `src/providers/symbol-provider.ts`,
  `src/providers/document-symbol-provider.ts` — cache loading/invalidation and
  item (de)serialization,
* `src/search/fuzzysort-adapter.ts`, `src/search/fuzzaldrin-adapter.ts` —
  the empty-query path of the fuzzy-searcher adapters.

Modelling conventions:
* JavaScript numbers are modelled as `ℚ` (all values appearing in these
  algorithms — timestamps, scores, priorities, epsilon — are exact in both
  binary floating point comparisons of interest and in `ℚ`; the special
  `-Infinity` / `NaN` cases in the comparator are translated by explicit case
  analysis with the float semantics recorded in comments).
* `vscode.Uri` values are modelled by their `uri.toString()` string; the code
  only ever compares/keys uris through `toString()`, and `Uri.parse` of a
  `toString()` round-trips.
* Optional / possibly-absent object fields (`'uri' in item`,
  `typeof x === 'number'`) are modelled with `Option`.
* `action` and `iconPath` (a closure and a UI icon, both rebuilt from other
  fields on deserialization and irrelevant to every algorithm here) are not
  part of the item models.
* JS `Map` insertion/iteration order is modelled with association lists kept
  in insertion order.
-/

/-! ## Data model (`src/core/types.ts`)

The `SearchItemType` enum is string-valued at runtime
(`File = 'file'`, `Command = 'command'`, `Symbol = 'symbol'`,
`Class = 'class'`, `TextMatch = 'text'`); we model type tags as the
corresponding strings so that "mislabeled"/corrupted tags are expressible. -/

def SearchItemType.File : String := "file"

def SearchItemType.Command : String := "command"

def SearchItemType.Symbol : String := "symbol"

def SearchItemType.Class : String := "class"

def SearchItemType.TextMatch : String := "text"

/-- A position inside a document (`vscode.Position`): `line`, `character`. -/
structure RangePos where
  line : Nat
  character : Nat
deriving DecidableEq, Repr

/-- A document range (`vscode.Range`). The source field `end` is a Lean
keyword, so it is named `stop` here. -/
structure ItemRange where
  start : RangePos
  stop : RangePos
deriving DecidableEq, Repr

/-- The base `SearchItem` shape as the coordinator (`SearchService`) sees it:
the shared fields plus the structural fields that the coordinator probes with
`'uri' in item` / `'range' in item` / `'command' in item` checks.
Ranking fields `score`, `activityScore`, `priority` are optional numbers. -/
structure SearchItem where
  id : String
  label : String
  description : String
  detail : String
  type : String
  uri : Option String
  range : Option ItemRange
  command : Option String
  score : Option ℚ
  activityScore : Option ℚ
  priority : Option ℚ
deriving DecidableEq, Repr

/-! ## Ranking comparator (`SearchService.sortResultsByPriority`) -/

/-- `const SCORE_EPSILON = 1e-9` (exact in both double and `ℚ`). -/
def SCORE_EPSILON : ℚ := 1 / 1000000000

/-- `a.priority || 50`: JS `||` substitutes the default 50 when `priority` is
absent (`undefined`) **or** equal to `0` (both falsy). -/
def effPriority (a : SearchItem) : ℚ :=
  match a.priority with
  | some p => if p = 0 then 50 else p
  | none => 50

/-- The score-then-priority tail of the comparator:

```js
const scoreA = ('score' in a && typeof a.score === 'number') ? a.score : -Infinity;
const scoreB = ... ? b.score : -Infinity;
if (Math.abs(scoreA - scoreB) > SCORE_EPSILON) { return scoreB - scoreA; }
const priorityA = a.priority || 50;
const priorityB = b.priority || 50;
return priorityB - priorityA;
```

The `-Infinity` float arithmetic is translated case by case:
* both scores present: finite arithmetic, identical in `ℚ`;
* exactly one present: `|finite - (-∞)| = ∞ > ε`, and `scoreB - scoreA` is
  `-∞` (negative) when only `a` has a score, `+∞` (positive) when only `b`
  does — a sort comparator only uses the sign, so `-1` / `1` is faithful;
* both absent: `scoreA - scoreB = NaN`, `Math.abs(NaN) > ε` is `false`, so
  control falls through to the priority comparison. -/
def scoreThenPriority (a b : SearchItem) : ℚ :=
  match a.score, b.score with
  | some sa, some sb =>
      if |sa - sb| > SCORE_EPSILON then sb - sa
      else effPriority b - effPriority a
  | some _, none => -1
  | none, some _ => 1
  | none, none => effPriority b - effPriority a

/-- The comparator passed to `results.sort` in `sortResultsByPriority`.
Only the sign of the returned value matters. -/
def cmpItems (a b : SearchItem) : ℚ :=
  let hasActivityA : ℚ := if a.activityScore.isSome then 1 else 0
  let hasActivityB : ℚ := if b.activityScore.isSome then 1 else 0
  if hasActivityB ≠ hasActivityA then hasActivityB - hasActivityA
  else if a.activityScore.isSome ∧ b.activityScore.isSome ∧
      a.activityScore.getD 0 ≠ b.activityScore.getD 0 then
    b.activityScore.getD 0 - a.activityScore.getD 0
  else scoreThenPriority a b

/-- Stable insertion of `x` into an already-sorted list: `x` is placed before
the first element `y` with `lt x y`, i.e. after every earlier element it
ties with or loses to. -/
def sortInsert (lt : α → α → Prop) [DecidableRel lt] (x : α) : List α → List α
  | [] => [x]
  | y :: ys => if lt x y then x :: y :: ys else y :: sortInsert lt x ys

/-- `Array.prototype.sort(cmp)`: ECMAScript specifies a stable sort consistent
with the comparator (the algorithm itself is implementation-defined); we model
it as a stable insertion sort driven by `cmpItems _ _ < 0`. -/
def sortResultsByPriority (results : List SearchItem) : List SearchItem :=
  results.foldl (fun acc x => sortInsert (fun a b => cmpItems a b < 0) x acc) []

/-! ## Deduplication (`SearchService.getDeduplicationKey`) and merge passes -/

/-- `item.label.replace(/\(\)$/, '')`: strip one trailing `()`.
(Implemented on the character list so that it evaluates by kernel
reduction.) -/
def normalizeLabel (label : String) : String :=
  let cs := label.data
  if 2 ≤ cs.length ∧ cs.drop (cs.length - 2) = ['(', ')'] then
    String.mk (cs.take (cs.length - 2))
  else label

/-- `str.split(sep)` on the character list: split into the (possibly empty)
maximal groups between occurrences of `sep`. -/
def splitOnChar (sep : Char) (cs : List Char) : List (List Char) :=
  cs.foldr
    (fun c acc =>
      match acc with
      | [] => if c = sep then [[], []] else [[c]]
      | g :: gs => if c = sep then [] :: g :: gs else (c :: g) :: gs)
    [[]]

/-- `parts.join(':')`. -/
def joinWithColon : List String → String
  | [] => ""
  | x :: xs => xs.foldl (fun a b => a ++ ":" ++ b) x

/-- `item.id.split(':').slice(1).join(':')` — the id with its first
colon-separated segment removed. -/
def idSuffix (id : String) : String :=
  joinWithColon (((splitOnChar ':' id.data).map String.mk).drop 1)

/-- `SearchService.getDeduplicationKey`, translated clause by clause:

```js
const normalizedLabel = item.label.replace(/\(\)$/, '');
if ('uri' in item && 'range' in item) {
  const prefix = item.type === SearchItemType.Class ? 'class' : 'symbol';
  return `${prefix}:${normalizedLabel}:${uri}:${range.start.line}:${range.start.character}`;
}
if (item.type === SearchItemType.File && 'uri' in item) { return `file:${uri}`; }
else if (item.type === SearchItemType.Command && 'command' in item) { return `command:${cmd}`; }
return `${item.type}:${normalizedLabel}:${idSuffix}`;
``` -/
def getDeduplicationKey (item : SearchItem) : String :=
  let normalizedLabel := normalizeLabel item.label
  match item.uri, item.range with
  | some uri, some range =>
      let pre := if item.type = SearchItemType.Class then "class" else "symbol"
      pre ++ ":" ++ normalizedLabel ++ ":" ++ uri ++ ":" ++
        toString range.start.line ++ ":" ++ toString range.start.character
  | _, _ =>
      if item.type = SearchItemType.File ∧ item.uri.isSome then
        "file:" ++ item.uri.getD ""
      else if item.type = SearchItemType.Command ∧ item.command.isSome then
        "command:" ++ item.command.getD ""
      else
        item.type ++ ":" ++ normalizedLabel ++ ":" ++ idSuffix item.id

/-- One iteration of the merge loops in `refreshIndex`'s `mergeBatch` /
final merge and in `updateIndexFromProviders`:

```js
const dedupeKey = this.getDeduplicationKey(item);
if (!deduplicationMap.has(dedupeKey)) { deduplicationMap.set(dedupeKey, item); }
```

The JS `Map` is modelled as an association list in insertion order. -/
def dedupeInsert (m : List (String × SearchItem)) (item : SearchItem) :
    List (String × SearchItem) :=
  let k := getDeduplicationKey item
  if (m.map Prod.fst).contains k then m else m ++ [(k, item)]

/-- A whole merge pass: every batch that arrives during the pass is folded
into the (initially empty) deduplication map in arrival order; the unified
item set is `Array.from(map.values())`, i.e. the second components in
insertion order. -/
def mergePass (batches : List (List SearchItem)) : List (String × SearchItem) :=
  batches.foldl (fun m batch => batch.foldl dedupeInsert m) []

/-! ## Recency boosting (`SearchService.boostRecentlyModifiedItems`) -/

/-- `const oneHour = 60 * 60 * 1000`. -/
def oneHour : ℚ := 60 * 60 * 1000

/-- `Math.max(0, 1 - (age / oneHour))` where `age = now - timestamp`. -/
def recencyScore (now timestamp : ℚ) : ℚ :=
  max 0 (1 - (now - timestamp) / oneHour)

/-- The per-item body of the `for` loop in `boostRecentlyModifiedItems`.
`activityWeight` is `config.activity.weight`, `now` is `Date.now()` and
`recent` is the `recentlyModifiedFiles` map (uri string → timestamp).

Structure of the source: a first `if / else if` chain (File branch, then
Symbol/Class-in-recently-modified-file branch), followed by an independent
`if` (Symbol/Class with own `activityScore`) that can stack on the second
branch.  The `if (timestamp)` truthiness checks are kept: a stored timestamp
of exactly `0` is falsy and skips the boost. -/
def boostItem (activityWeight now : ℚ) (recent : String → Option ℚ)
    (item : SearchItem) : SearchItem :=
  let item1 :=
    if item.type = SearchItemType.File ∧ item.uri.isSome then
      match recent (item.uri.getD "") with
      | some timestamp =>
          if timestamp ≠ 0 then
            let recency := recencyScore now timestamp
            let boost := 1 + recency * activityWeight
            match item.score with
            | some s => { item with score := some (s * boost) }
            | none => item
          else item
      | none => item
    else if (item.type = SearchItemType.Symbol ∨ item.type = SearchItemType.Class) ∧
        item.uri.isSome then
      match recent (item.uri.getD "") with
      | some timestamp =>
          -- `if (timestamp && 'score' in item && typeof item.score === 'number')`
          if timestamp ≠ 0 then
            match item.score with
            | some s =>
                let recency := recencyScore now timestamp
                -- Slightly lower than files
                let boost := 1 + recency * activityWeight * (8/10)
                { item with score := some (s * boost) }
            | none => item
          else item
      | none => item
    else item
  if (item1.type = SearchItemType.Symbol ∨ item1.type = SearchItemType.Class) ∧
      item1.activityScore.isSome then
    let timestamp := item1.activityScore.getD 0
    let recency := recencyScore now timestamp
    let boost := 1 + recency * activityWeight * (15/10)
    match item1.score with
    | some s =>
        -- multiplicative boost, plus a small additive boost so recently used
        -- items beat similar fuzzy scores
        { item1 with score := some (s * boost + recency * (4/10)) }
    | none => item1
  else item1

/-- `boostRecentlyModifiedItems` mutates each result in place; the pure
counterpart maps `boostItem` over the list. -/
def boostRecentlyModifiedItems (activityWeight now : ℚ) (recent : String → Option ℚ)
    (results : List SearchItem) : List SearchItem :=
  results.map (boostItem activityWeight now recent)

/-! ## Provider items and cache serialization
(`src/cache/serialized-types.ts`, `src/providers/file-provider.ts`,
`src/providers/document-symbol-provider.ts`, `src/providers/symbol-provider.ts`) -/

/-- `CACHE_VERSION` from `src/cache/index.ts`. -/
def CACHE_VERSION : Nat := 1

/-- A `FileSearchItem` (provider-level, `src/core/types.ts`): `type` is fixed
to `'file'` by the interface but carried as data so (de)serialization is
observable. -/
structure FileSearchItem where
  id : String
  label : String
  description : String
  detail : String
  type : String
  uri : String
  relativePath : Option String
  score : Option ℚ
  activityScore : Option ℚ
  priority : Option ℚ
deriving DecidableEq, Repr

/-- A `SymbolSearchItem` (provider-level): `type` is `'symbol' | 'class'` by
the interface, carried as a string. -/
structure SymbolSearchItem where
  id : String
  label : String
  description : String
  detail : String
  type : String
  uri : String
  range : ItemRange
  symbolKind : Nat
  symbolGroup : Option Nat
  priority : Option ℚ
  score : Option ℚ
  activityScore : Option ℚ
deriving DecidableEq, Repr

/-- `SerializedFileItem`: `{ id, label, description, detail, type: 'file', uri }`. -/
structure SerializedFileItem where
  id : String
  label : String
  description : String
  detail : String
  type : String
  uri : String
deriving DecidableEq, Repr

/-- `SerializedSymbolItem`. -/
structure SerializedSymbolItem where
  id : String
  label : String
  description : String
  detail : String
  type : String
  uri : String
  range : ItemRange
  symbolKind : Nat
  symbolGroup : Option Nat
  priority : Option ℚ
deriving DecidableEq, Repr

/-- `FileSearchProvider.serializeFileItem`. -/
def serializeFileItem (item : FileSearchItem) : SerializedFileItem :=
  { id := item.id
    label := item.label
    description := item.description
    detail := item.detail
    type := "file"
    uri := item.uri }

/-- `FileSearchProvider.deserializeFileItem`: rebuilds a `FileSearchItem`
from the serialized payload (`iconPath`/`action` are regenerated from `uri`
and are not modelled; no other field of the serialized payload is read). -/
def deserializeFileItem (s : SerializedFileItem) : FileSearchItem :=
  { id := s.id
    label := s.label
    description := s.description
    detail := s.detail
    type := SearchItemType.File
    uri := s.uri
    relativePath := none
    score := none
    activityScore := none
    priority := none }

/-- `DocumentSymbolProvider.serializeSymbolItem` (the identical function also
appears in `SymbolSearchProvider`): `type` is a plain cast
(`item.type as 'symbol' | 'class'`), i.e. the runtime string is kept. -/
def serializeSymbolItem (item : SymbolSearchItem) : SerializedSymbolItem :=
  { id := item.id
    label := item.label
    description := item.description
    detail := item.detail
    type := item.type
    uri := item.uri
    range := item.range
    symbolKind := item.symbolKind
    symbolGroup := item.symbolGroup
    priority := item.priority }

/-- `DocumentSymbolProvider.deserializeSymbolItem`: the type tag is coerced —
`const type = s.type === 'class' ? SearchItemType.Class : SearchItemType.Symbol`
— so cache corruption / an old format can never produce a `'file'`-typed item
(`iconPath`/`action` are regenerated and not modelled). -/
def docDeserializeSymbolItem (s : SerializedSymbolItem) : SymbolSearchItem :=
  { id := s.id
    label := s.label
    description := s.description
    detail := s.detail
    type := if s.type = "class" then SearchItemType.Class else SearchItemType.Symbol
    uri := s.uri
    range := s.range
    symbolKind := s.symbolKind
    symbolGroup := s.symbolGroup
    priority := s.priority
    score := none
    activityScore := none }

/-- `SymbolSearchProvider.deserializeSymbolItem` (workspace-symbols provider):
unlike the document-symbol provider, the type is a plain cast
(`s.type as SymbolSearchItem['type']`), keeping the stored string. -/
def wsDeserializeSymbolItem (s : SerializedSymbolItem) : SymbolSearchItem :=
  { id := s.id
    label := s.label
    description := s.description
    detail := s.detail
    type := s.type
    uri := s.uri
    range := s.range
    symbolKind := s.symbolKind
    symbolGroup := s.symbolGroup
    priority := s.priority
    score := none
    activityScore := none }

/-! ## Cache payloads and cache loading (`C1`)

`mtime` values are `FileStat.mtime` milliseconds, modelled as `Nat`. -/

/-- `ManifestEntry`: `{ uri, mtime }`. -/
structure ManifestEntry where
  uri : String
  mtime : Nat
deriving DecidableEq, Repr

/-- `FileIndexCache`. -/
structure FileIndexCache where
  version : Nat
  workspaceFingerprint : String
  manifest : List ManifestEntry
  items : List SerializedFileItem
deriving DecidableEq, Repr

/-- `WorkspaceSymbolsCache`. -/
structure WorkspaceSymbolsCache where
  version : Nat
  workspaceFingerprint : String
  manifest : List ManifestEntry
  items : List SerializedSymbolItem
deriving DecidableEq, Repr

/-- `DocumentSymbolsFileEntry`: `{ mtime, symbols }`. -/
structure DocumentSymbolsFileEntry where
  mtime : Nat
  symbols : List SerializedSymbolItem
deriving DecidableEq, Repr

/-- `DocumentSymbolsCache`: the `files` record (uri → entry) is modelled as an
association list with unique keys. -/
structure DocumentSymbolsCache where
  version : Nat
  workspaceFingerprint : String
  files : List (String × DocumentSymbolsFileEntry)
deriving DecidableEq, Repr

/-- `new Map(entries.map(e => [e.uri, e.mtime])).get(uri)`: a JS `Map` built
from a pair list keeps the **last** entry per key. -/
def manifestGet (entries : List ManifestEntry) (uri : String) : Option Nat :=
  (entries.reverse.find? (fun e => e.uri = uri)).map ManifestEntry.mtime

/-- `new Map(cache.items.map(i => [i.uri, i])).get(uri)` (file-index cache). -/
def cachedItemGet (items : List SerializedFileItem) (uri : String) :
    Option SerializedFileItem :=
  items.reverse.find? (fun i => i.uri = uri)

/-- `SymbolSearchProvider.tryLoadFromCache` (workspace-symbols), as a function
of the cache read result, the current workspace fingerprint, and the freshly
computed current manifest.  `some items` models "cache was valid and used"
(return `true` with `this.symbolItems` set); `none` models "return `false`",
after which the caller performs a full re-index:

```js
if (!cache || cache.version !== CACHE_VERSION || cache.workspaceFingerprint !== fingerprint) return false;
if (currentManifest.length !== cachedManifest.length) return false;
for (const { uri, mtime } of currentManifest)
  if (cachedMtimeByUri.get(uri) !== mtime) return false;
this.symbolItems = (cache.items || []).map(s => this.deserializeSymbolItem(s));
return true;
``` -/
def wsTryLoadFromCache (cache : Option WorkspaceSymbolsCache) (fingerprint : String)
    (currentManifest : List ManifestEntry) : Option (List SymbolSearchItem) :=
  match cache with
  | none => none
  | some c =>
      if c.version ≠ CACHE_VERSION ∨ c.workspaceFingerprint ≠ fingerprint then none
      else if currentManifest.length ≠ c.manifest.length then none
      else if currentManifest.all (fun e => manifestGet c.manifest e.uri = some e.mtime) then
        some (c.items.map wsDeserializeSymbolItem)
      else none

/-- Result of the file provider's incremental cache load: the cached items
reused as-is (`unchanged`, in current-entry order) and the uris that get
re-indexed from scratch (`toIndex`). -/
structure FileCachePartition where
  unchanged : List FileSearchItem
  toIndex : List String
deriving DecidableEq, Repr

/-- The body of the `for (const { uri, mtime } of currentEntries)` loop of
`FileSearchProvider.refreshFromCacheOrFull` for one entry. -/
def fileCacheStep (c : FileIndexCache) (acc : FileCachePartition) (e : ManifestEntry) :
    FileCachePartition :=
  match manifestGet c.manifest e.uri with
  | some cachedMtime =>
      if cachedMtime = e.mtime then
        match cachedItemGet c.items e.uri with
        | some serialized =>
            { acc with unchanged := acc.unchanged ++ [deserializeFileItem serialized] }
        | none => { acc with toIndex := acc.toIndex ++ [e.uri] }
      else { acc with toIndex := acc.toIndex ++ [e.uri] }
  | none => { acc with toIndex := acc.toIndex ++ [e.uri] }

/-- `FileSearchProvider.refreshFromCacheOrFull`, as a function of the cache
read result, the current fingerprint, and the current `{uri, mtime}` entries.
`none` models "return `false`" (cache rejected; caller runs `fullRefresh`);
`some p` models "cache used": for every current entry, a cached item with a
matching mtime is deserialized and reused, anything else goes to `toIndex`:

```js
if (!cache || cache.version !== CACHE_VERSION || cache.workspaceFingerprint !== fingerprint) return false;
for (const { uri, mtime } of currentEntries) {
  const cachedMtime = cachedMtimeByUri.get(uriStr);
  if (cachedMtime !== undefined && cachedMtime === mtime) {
    const serialized = cachedItemByUri.get(uriStr);
    if (serialized) unchanged.push(this.deserializeFileItem(serialized));
    else toIndex.push(uri);
  } else toIndex.push(uri);
}
...
return true;
```

(The subsequent `processFileBatch` over `toIndex` and the final mtime sort
rebuild `this.fileItems` but do not affect which files are re-indexed.) -/
def fileRefreshFromCacheOrFull (cache : Option FileIndexCache) (fingerprint : String)
    (currentEntries : List ManifestEntry) : Option FileCachePartition :=
  match cache with
  | none => none
  | some c =>
      if c.version ≠ CACHE_VERSION ∨ c.workspaceFingerprint ≠ fingerprint then none
      else some (currentEntries.foldl (fileCacheStep c) { unchanged := [], toIndex := [] })

/-- Result of the document-symbol provider's incremental cache load: symbols
deserialized from still-fresh per-file entries, the number of files served
from cache, and the `{uri, mtime}` pairs queued for re-indexing. -/
structure DocCachePartition where
  fromCacheItems : List SymbolSearchItem
  fromCacheCount : Nat
  toIndex : List (String × Nat)
deriving DecidableEq, Repr

/-- The body of the `for (const { uri, mtime } of currentEntries)` loop of
`DocumentSymbolProvider.refreshFromCacheOrFull` for one entry (the
`entry.symbols.length >= 0` conjunct is in the source's condition). -/
def docCacheStep (c : DocumentSymbolsCache) (acc : DocCachePartition) (e : ManifestEntry) :
    DocCachePartition :=
  match c.files.lookup e.uri with
  | some entry =>
      if entry.mtime = e.mtime ∧ entry.symbols.length ≥ 0 then
        { acc with
          fromCacheItems := acc.fromCacheItems ++ entry.symbols.map docDeserializeSymbolItem
          fromCacheCount := acc.fromCacheCount + 1 }
      else { acc with toIndex := acc.toIndex ++ [(e.uri, e.mtime)] }
  | none => { acc with toIndex := acc.toIndex ++ [(e.uri, e.mtime)] }

/-- `DocumentSymbolProvider.refreshFromCacheOrFull`, as a function of the
cache read result, the current fingerprint, and the current source-file
`{uri, mtime}` entries.  `none` models "return `false`" (full re-index); with
a valid cache, each current file whose per-file entry has a matching mtime is
served from cache and **only the stale/missing files** are re-indexed:

```js
if (!cache || cache.version !== CACHE_VERSION || cache.workspaceFingerprint !== fingerprint) return false;
const cachedFiles = cache.files || {};
for (const { uri, mtime } of currentEntries) {
  const entry = cachedFiles[uriStr];
  if (entry && entry.mtime === mtime && entry.symbols.length >= 0) {
    for (const s of entry.symbols) this.symbolItems.push(this.deserializeSymbolItem(s));
    fromCache++;
  } else toIndex.push({ uri, mtime });
}
...
return true;
``` -/
def docRefreshFromCacheOrFull (cache : Option DocumentSymbolsCache) (fingerprint : String)
    (currentEntries : List ManifestEntry) : Option DocCachePartition :=
  match cache with
  | none => none
  | some c =>
      if c.version ≠ CACHE_VERSION ∨ c.workspaceFingerprint ≠ fingerprint then none
      else some (currentEntries.foldl (docCacheStep c)
        { fromCacheItems := [], fromCacheCount := 0, toIndex := [] })

/-! ## Fuzzy-searcher adapters (`C8`)

Only the code surrounding the external library call is translated; the
library itself (`fuzzysort.go` / `fuzzaldrinPlus.filter` + `.score`) is an
oracle parameter. -/

/-- `Number.MAX_SAFE_INTEGER`. -/
def MAX_SAFE_INTEGER : Nat := 2 ^ 53 - 1

/-- `!query.trim()`: `String.prototype.trim` yields the empty string exactly
when every character is whitespace. -/
def queryIsBlank (query : String) : Bool :=
  query.toList.all Char.isWhitespace

/-- The searchable wrapper both adapters build:
`{ searchText: `${label} ${description} ${detail}`, originalItem }`. -/
structure FuzzyTarget where
  searchText : String
  originalItem : SearchItem
deriving Repr

/-- One `fuzzysort.go` result: `result.obj` and the raw (negative) score. -/
structure FuzzysortResult where
  obj : FuzzyTarget
  score : ℚ
deriving Repr

/-- `FuzzysortAdapter.search`, with the `fuzzysort.go` call abstracted as the
oracle `go (query, targets, limit?)`:

```js
const effectiveLimit = limit ?? Number.MAX_SAFE_INTEGER;
if (!query.trim()) { return items.slice(0, effectiveLimit); }
const targets = items.map(item => ({ searchText: `${item.label} ${item.description || ''} ${item.detail || ''}`, originalItem: item }));
const goLimit = effectiveLimit === Number.MAX_SAFE_INTEGER ? undefined : effectiveLimit * 2;
const results = fuzzysort.go(query, targets, { key: 'searchText', ...(goLimit !== undefined && { limit: goLimit }) });
const foundItems = results.map(result => { const item = result.obj.originalItem; item.score = Math.max(0, 1000 + result.score) / 1000; return item; });
return foundItems.slice(0, effectiveLimit);
``` -/
def fuzzysortSearch (go : String → List FuzzyTarget → Option Nat → List FuzzysortResult)
    (items : List SearchItem) (query : String) (limit : Option Nat) : List SearchItem :=
  let effectiveLimit := limit.getD MAX_SAFE_INTEGER
  if queryIsBlank query then items.take effectiveLimit
  else
    let targets := items.map (fun item =>
      { searchText := item.label ++ " " ++ item.description ++ " " ++ item.detail
        originalItem := item })
    let goLimit := if effectiveLimit = MAX_SAFE_INTEGER then none else some (effectiveLimit * 2)
    let results := go query targets goLimit
    let foundItems := results.map (fun result =>
      { result.obj.originalItem with
        score := some (max 0 (1000 + result.score) / 1000) })
    foundItems.take effectiveLimit

/-- `FuzzaldrinAdapter.search`, with `fuzzaldrinPlus.filter` and
`fuzzaldrinPlus.score` abstracted as oracles:

```js
const effectiveLimit = limit ?? Number.MAX_SAFE_INTEGER;
if (!query.trim()) { return items.slice(0, effectiveLimit); }
const searchableItems = items.map(item => ({ originalItem: item, searchText: ... }));
const filterOptions = { key: 'searchText' };
if (effectiveLimit !== Number.MAX_SAFE_INTEGER) filterOptions.maxResults = effectiveLimit * 2;
const results = fuzzaldrinPlus.filter(searchableItems, query, filterOptions);
const foundItems = results.map(result => { const item = result.originalItem; item.score = fuzzaldrinPlus.score(result.searchText, query) / 100; return item; });
return foundItems.slice(0, effectiveLimit);
``` -/
def fuzzaldrinSearch (filter : List FuzzyTarget → String → Option Nat → List FuzzyTarget)
    (scoreFn : String → String → ℚ)
    (items : List SearchItem) (query : String) (limit : Option Nat) : List SearchItem :=
  let effectiveLimit := limit.getD MAX_SAFE_INTEGER
  if queryIsBlank query then items.take effectiveLimit
  else
    let searchableItems := items.map (fun item =>
      { searchText := item.label ++ " " ++ item.description ++ " " ++ item.detail
        originalItem := item })
    let maxResults := if effectiveLimit ≠ MAX_SAFE_INTEGER then some (effectiveLimit * 2) else none
    let results := filter searchableItems query maxResults
    let foundItems := results.map (fun result =>
      { result.originalItem with score := some (scoreFn result.searchText query / 100) })
    foundItems.take effectiveLimit

/-! ## `refreshIndex` single-flight concurrency (`C6`)

`SearchService.refreshIndex(force)`:

```js
if (this.refreshPromise !== null) {
  if (!force) { await this.refreshPromise; return; }
  await this.refreshPromise;
  this.refreshPromise = null;
}
this.refreshPromise = doRefresh();
try { await this.refreshPromise; } finally { this.refreshPromise = null; }
```

We model the single-threaded cooperative (JS event loop) semantics as a
small-step machine.  Each caller runs atomically between suspension points
(`await`); `doRefresh()` executes synchronously up to its first internal
`await`, so "create the refresh execution, count the provider pass, and store
the shared promise" is one atomic step.  A refresh execution in flight is an
unresolved promise in `running`; a scheduler action either runs one caller's
next atomic segment or completes one in-flight refresh. -/

/-- Program counter of one `refreshIndex` caller:
* `callStart force` — about to execute the body (its synchronous prefix);
* `awaitShared p` — non-forced caller awaiting an in-flight promise `p`
  (line `await this.refreshPromise; return`);
* `awaitRestart p` — forced caller awaiting the in-flight `p`, after which it
  clears the field and starts its own refresh;
* `awaitOwn p` — the caller that spawned refresh `p`, inside
  `try { await } finally { this.refreshPromise = null }`;
* `done` — the call resolved. -/
inductive CallerState where
  | callStart (force : Bool)
  | awaitShared (p : Nat)
  | awaitRestart (p : Nat)
  | awaitOwn (p : Nat)
  | done
deriving DecidableEq, Repr

/-- The shared service state plus all callers:
* `refreshPromise` — the shared in-flight promise field;
* `running` — promise ids of refresh executions spawned but not finished
  (two elements here = two full refreshes running concurrently);
* `resolved` — promise ids of completed refresh executions;
* `nextId` — fresh promise id source;
* `passes` — how many full provider passes (`doRefresh` executions) started. -/
structure RefreshSys where
  refreshPromise : Option Nat
  running : List Nat
  resolved : List Nat
  nextId : Nat
  passes : Nat
  tasks : List CallerState
deriving DecidableEq, Repr

/-- `this.refreshPromise = doRefresh()`: the new execution starts (one more
provider pass, promise `nextId` in flight) and the field is assigned before
the caller's next suspension point. -/
def spawnRefresh (s : RefreshSys) : Nat × RefreshSys :=
  (s.nextId,
    { s with
      refreshPromise := some s.nextId
      running := s.nextId :: s.running
      nextId := s.nextId + 1
      passes := s.passes + 1 })

/-- Replace caller `i`'s state. -/
def setTask (s : RefreshSys) (i : Nat) (t : CallerState) : RefreshSys :=
  { s with tasks := s.tasks.set i t }

/-- One atomic segment of caller `i` (no-op when the caller is blocked on an
unresolved promise, already done, or `i` is out of range). -/
def stepTask (s : RefreshSys) (i : Nat) : RefreshSys :=
  match s.tasks.get? i with
  | none => s
  | some t =>
      match t with
      | .callStart force =>
          match s.refreshPromise with
          | some p =>
              if force then setTask s i (.awaitRestart p)
              else setTask s i (.awaitShared p)
          | none =>
              let (p, s') := spawnRefresh s
              setTask s' i (.awaitOwn p)
      | .awaitShared p =>
          if p ∈ s.resolved then setTask s i .done else s
      | .awaitRestart p =>
          if p ∈ s.resolved then
            -- `this.refreshPromise = null;` then `this.refreshPromise = doRefresh();`
            -- with no suspension point in between
            let s1 := { s with refreshPromise := none }
            let (q, s2) := spawnRefresh s1
            setTask s2 i (.awaitOwn q)
          else s
      | .awaitOwn p =>
          if p ∈ s.resolved then
            -- the `finally` clears the shared field unconditionally
            setTask { s with refreshPromise := none } i .done
          else s
      | .done => s

/-- A scheduler action: run one caller's next atomic segment, or let one
in-flight refresh execution run to completion (resolve its promise). -/
inductive RefreshAct where
  | run (i : Nat)
  | finish (p : Nat)
deriving DecidableEq, Repr

/-- Apply one scheduler action. -/
def stepAct (s : RefreshSys) : RefreshAct → RefreshSys
  | .run i => stepTask s i
  | .finish p =>
      if p ∈ s.running then
        { s with running := s.running.erase p, resolved := p :: s.resolved }
      else s

/-- Run a whole schedule (list of actions). -/
def execTrace (s : RefreshSys) (acts : List RefreshAct) : RefreshSys :=
  acts.foldl stepAct s

/-- Scenario "two non-forced `refreshIndex()` calls issued concurrently":
the state just after both calls ran their synchronous prefixes, the second
while the first call's refresh was still in flight — caller 0 spawned
refresh `0` and caller 1 found it in flight and awaits it. -/
def twoNonForcedInit : RefreshSys :=
  { refreshPromise := some 0
    running := [0]
    resolved := []
    nextId := 1
    passes := 1
    tasks := [.awaitOwn 0, .awaitShared 0] }

/-- Scenario "one refresh in flight, one forced call issued during it". -/
def forcedDuringFlightInit : RefreshSys :=
  { refreshPromise := some 0
    running := [0]
    resolved := []
    nextId := 1
    passes := 1
    tasks := [.awaitOwn 0, .awaitRestart 0] }

/-- Scenario "one refresh in flight, two forced calls issued during it". -/
def twoForcedDuringFlightInit : RefreshSys :=
  { refreshPromise := some 0
    running := [0]
    resolved := []
    nextId := 1
    passes := 1
    tasks := [.awaitOwn 0, .awaitRestart 0, .awaitRestart 0] }

/-! ## Theorems -/

/-! ### C9 — document-symbol deserialization can never yield a File item -/

/-- C9: every item produced by `DocumentSymbolProvider.deserializeSymbolItem`
has type `Symbol` or `Class`; any serialized type other than `'class'`
(including `'file'` or a corrupted value) is coerced to `Symbol`, so a cached
document-symbol entry can never deserialize into a File-typed item. -/
theorem doc_deserialize_never_file :
    (∀ s : SerializedSymbolItem,
      (docDeserializeSymbolItem s).type = SearchItemType.Symbol ∨
      (docDeserializeSymbolItem s).type = SearchItemType.Class) ∧
    (∀ s : SerializedSymbolItem, s.type ≠ "class" →
      (docDeserializeSymbolItem s).type = SearchItemType.Symbol) ∧
    (∀ s : SerializedSymbolItem,
      (docDeserializeSymbolItem s).type ≠ SearchItemType.File) := by
  refine ⟨fun s => ?_, fun s hs => ?_, fun s => ?_⟩
  · by_cases h : s.type = "class" <;>
      simp [docDeserializeSymbolItem, h, SearchItemType.Symbol, SearchItemType.Class]
  · simp [docDeserializeSymbolItem, hs, SearchItemType.Symbol]
  · by_cases h : s.type = "class" <;>
      simp [docDeserializeSymbolItem, h, SearchItemType.Symbol, SearchItemType.Class,
        SearchItemType.File]

/-- Witness for `doc_deserialize_never_file` at a corrupted serialized entry
whose stored type is `'file'`. -/
theorem doc_deserialize_never_file_witness :
    (docDeserializeSymbolItem
      { id := "s", label := "L", description := "", detail := "", type := "file",
        uri := "file:///a.ts", range := ⟨⟨0, 0⟩, ⟨0, 1⟩⟩, symbolKind := 5,
        symbolGroup := none, priority := some 50 }).type = SearchItemType.Symbol :=
  doc_deserialize_never_file.2.1
    { id := "s", label := "L", description := "", detail := "", type := "file",
      uri := "file:///a.ts", range := ⟨⟨0, 0⟩, ⟨0, 1⟩⟩, symbolKind := 5,
      symbolGroup := none, priority := some 50 }
    (by decide)

/-! ### C10 — `priority: 0` ranks like the default 50 -/

/-- C10: in `sortResultsByPriority`'s comparator, an item whose `priority`
field is exactly `0` is compared as if its priority were the default 50: the
comparator reads `a.priority || 50`, and `0` is falsy, so priority `0` and a
missing priority are indistinguishable in ranking. -/
theorem priority_zero_ranks_as_default :
    ∀ a b : SearchItem, a.priority = some 0 →
      effPriority a = 50 ∧
      cmpItems a b = cmpItems { a with priority := none } b ∧
      cmpItems b a = cmpItems b { a with priority := none } := by
  rintro ⟨id, lab, desc, det, ty, uri, rng, cmd, sc, act, prio⟩ b hp
  subst hp
  refine ⟨by simp [effPriority], ?_, ?_⟩ <;>
    simp [cmpItems, scoreThenPriority, effPriority]

/-- Witness for `priority_zero_ranks_as_default`: two concrete items, the
first with `priority = 0`. -/
theorem priority_zero_ranks_as_default_witness :
    effPriority
      { id := "a", label := "a", description := "", detail := "",
        type := SearchItemType.File, uri := none, range := none, command := none,
        score := some 1, activityScore := none, priority := some 0 } = 50 :=
  (priority_zero_ranks_as_default
    { id := "a", label := "a", description := "", detail := "",
      type := SearchItemType.File, uri := none, range := none, command := none,
      score := some 1, activityScore := none, priority := some 0 }
    { id := "b", label := "b", description := "", detail := "",
      type := SearchItemType.File, uri := none, range := none, command := none,
      score := some 1, activityScore := none, priority := some 60 }
    rfl).1

/-! ### C4 — sub-epsilon score differences are ignored in favour of priority -/

/-- C4: when neither item has an `activityScore` and the absolute difference
of their scores is at most `1e-9`, the comparator's result is exactly the
priority comparison (higher priority first), ignoring the sub-epsilon score
difference; in particular scores `0.50000000001` vs `0.5` with priorities
`100` vs `50` sort with the priority-100 item first. -/
theorem epsilon_tie_break_uses_priority :
    (∀ (a b : SearchItem) (sa sb : ℚ),
      a.activityScore = none → b.activityScore = none →
      a.score = some sa → b.score = some sb →
      |sa - sb| ≤ SCORE_EPSILON →
      cmpItems a b = effPriority b - effPriority a) ∧
    cmpItems
      { id := "p100", label := "p100", description := "", detail := "",
        type := SearchItemType.File, uri := none, range := none, command := none,
        score := some 0.50000000001, activityScore := none, priority := some 100 }
      { id := "p50", label := "p50", description := "", detail := "",
        type := SearchItemType.File, uri := none, range := none, command := none,
        score := some 0.5, activityScore := none, priority := some 50 } < 0 ∧
    sortResultsByPriority
      [ { id := "p50", label := "p50", description := "", detail := "",
          type := SearchItemType.File, uri := none, range := none, command := none,
          score := some 0.5, activityScore := none, priority := some 50 },
        { id := "p100", label := "p100", description := "", detail := "",
          type := SearchItemType.File, uri := none, range := none, command := none,
          score := some 0.50000000001, activityScore := none, priority := some 100 } ]
    = [ { id := "p100", label := "p100", description := "", detail := "",
          type := SearchItemType.File, uri := none, range := none, command := none,
          score := some 0.50000000001, activityScore := none, priority := some 100 },
        { id := "p50", label := "p50", description := "", detail := "",
          type := SearchItemType.File, uri := none, range := none, command := none,
          score := some 0.5, activityScore := none, priority := some 50 } ] := by
  have habs : |(1 : ℚ) / 100000000000| = 1 / 100000000000 := abs_of_pos (by norm_num)
  refine ⟨fun a b sa sb hact hbct hsa hsb heps => ?_, ?_, ?_⟩
  · have : ¬ (|sa - sb| > SCORE_EPSILON) := not_lt.mpr heps
    simp [cmpItems, scoreThenPriority, hact, hbct, hsa, hsb, this]
  · norm_num [cmpItems, scoreThenPriority, effPriority, SCORE_EPSILON, habs]
  · norm_num [sortResultsByPriority, sortInsert, cmpItems, scoreThenPriority, effPriority,
      SCORE_EPSILON, habs]

/-- Witness for `epsilon_tie_break_uses_priority`: the universal clause
applied to the two concrete items of the claim. -/
theorem epsilon_tie_break_uses_priority_witness :
    cmpItems
      { id := "p100", label := "p100", description := "", detail := "",
        type := SearchItemType.File, uri := none, range := none, command := none,
        score := some 0.50000000001, activityScore := none, priority := some 100 }
      { id := "p50", label := "p50", description := "", detail := "",
        type := SearchItemType.File, uri := none, range := none, command := none,
        score := some 0.5, activityScore := none, priority := some 50 }
    = effPriority
        { id := "p50", label := "p50", description := "", detail := "",
          type := SearchItemType.File, uri := none, range := none, command := none,
          score := some 0.5, activityScore := none, priority := some 50 }
      - effPriority
        { id := "p100", label := "p100", description := "", detail := "",
          type := SearchItemType.File, uri := none, range := none, command := none,
          score := some 0.50000000001, activityScore := none, priority := some 100 } :=
  epsilon_tie_break_uses_priority.1 _ _ 0.50000000001 0.5 rfl rfl rfl rfl
    (by rw [show (0.50000000001 : ℚ) - 0.5 = 1 / 100000000000 by norm_num,
          abs_of_pos (by norm_num : (0 : ℚ) < 1 / 100000000000)]
        norm_num [SCORE_EPSILON])

/-! ### C7 — cache round-trip -/

/-- A symbol item carrying a recorded selection timestamp (`activityScore`),
as produced when `applyPersistedActivityScores` has stamped the provider's
in-memory items before a cache save. -/
def symRoundTripEx : SymbolSearchItem :=
  { id := "symbol:foo:file:///a.ts:1:2", label := "foo", description := "Method",
    detail := "/a.ts", type := "symbol", uri := "file:///a.ts",
    range := ⟨⟨1, 2⟩, ⟨3, 4⟩⟩, symbolKind := 5, symbolGroup := some 1,
    priority := some 90, score := none, activityScore := some 42 }

/-- C7 counterexample: the claim "serialize-then-deserialize reproduces all
of the item's fields except the transient `score` and `action`" fails on
`activityScore`: a symbol item with `activityScore = 42` round-trips through
`serializeSymbolItem`/`deserializeSymbolItem` to an item whose
`activityScore` is absent (the serialized payload has no such field). -/
theorem symbol_roundtrip_drops_activity_score :
    symRoundTripEx.activityScore = some 42 ∧
    (docDeserializeSymbolItem (serializeSymbolItem symRoundTripEx)).activityScore = none ∧
    docDeserializeSymbolItem (serializeSymbolItem symRoundTripEx) ≠ symRoundTripEx := by
  refine ⟨rfl, rfl, ?_⟩
  intro h
  have := congrArg SymbolSearchItem.activityScore h
  simp [docDeserializeSymbolItem, serializeSymbolItem, symRoundTripEx] at this

/-- C7 (amended): serialize-then-deserialize reproduces every field of an
item except the transient `score`, the regenerated `action`/`iconPath`, and
`activityScore`, which is dropped (it is persisted separately in the
activity-scores cache); for file items the optional `priority` and
`relativePath` fields are additionally dropped, since `SerializedFileItem`
does not store them. -/
theorem cache_roundtrip_fields :
    (∀ item : FileSearchItem, item.type = SearchItemType.File →
      deserializeFileItem (serializeFileItem item) =
        { item with relativePath := none, score := none,
                    activityScore := none, priority := none }) ∧
    (∀ item : SymbolSearchItem,
      item.type = SearchItemType.Symbol ∨ item.type = SearchItemType.Class →
      docDeserializeSymbolItem (serializeSymbolItem item) =
        { item with score := none, activityScore := none }) := by
  constructor
  · rintro ⟨id, lab, desc, det, ty, uri, rel, sc, act, prio⟩ hty
    simp only [SearchItemType.File] at hty
    subst hty
    rfl
  · rintro ⟨id, lab, desc, det, ty, uri, rng, kind, grp, prio, sc, act⟩ hty
    rcases hty with hty | hty <;>
      · simp only [SearchItemType.Symbol, SearchItemType.Class] at hty
        subst hty
        rfl

/-- Witness for `cache_roundtrip_fields`: a concrete file item and a concrete
class item round-trip to themselves minus the dropped fields. -/
theorem cache_roundtrip_fields_witness :
    deserializeFileItem (serializeFileItem
      { id := "file:file:///a.ts", label := "a.ts", description := "a.ts",
        detail := "/a.ts", type := "file", uri := "file:///a.ts",
        relativePath := some "a.ts", score := some 1, activityScore := some 7,
        priority := some 60 }) =
      { id := "file:file:///a.ts", label := "a.ts", description := "a.ts",
        detail := "/a.ts", type := "file", uri := "file:///a.ts",
        relativePath := none, score := none, activityScore := none,
        priority := none } ∧
    docDeserializeSymbolItem (serializeSymbolItem
      { id := "symbol:C:file:///a.ts:0:0", label := "C", description := "Class",
        detail := "/a.ts", type := "class", uri := "file:///a.ts",
        range := ⟨⟨0, 0⟩, ⟨9, 0⟩⟩, symbolKind := 4, symbolGroup := some 0,
        priority := some 100, score := some 2, activityScore := none }) =
      { id := "symbol:C:file:///a.ts:0:0", label := "C", description := "Class",
        detail := "/a.ts", type := "class", uri := "file:///a.ts",
        range := ⟨⟨0, 0⟩, ⟨9, 0⟩⟩, symbolKind := 4, symbolGroup := some 0,
        priority := some 100, score := none, activityScore := none } :=
  ⟨cache_roundtrip_fields.1
      { id := "file:file:///a.ts", label := "a.ts", description := "a.ts",
        detail := "/a.ts", type := "file", uri := "file:///a.ts",
        relativePath := some "a.ts", score := some 1, activityScore := some 7,
        priority := some 60 } rfl,
    cache_roundtrip_fields.2
      { id := "symbol:C:file:///a.ts:0:0", label := "C", description := "Class",
        detail := "/a.ts", type := "class", uri := "file:///a.ts",
        range := ⟨⟨0, 0⟩, ⟨9, 0⟩⟩, symbolKind := 4, symbolGroup := some 0,
        priority := some 100, score := some 2, activityScore := none }
      (Or.inr rfl)⟩

/-! ### C8 — blank queries return the first `limit` items unscored -/

/-- C8: for both fuzzy-searcher adapters, a query that is empty or
whitespace-only returns the first `limit` items of the input list unchanged
(`items.slice(0, effectiveLimit)`), all items when no limit was given, and no
item's `score` is set or modified (the returned items are the input items). -/
theorem blank_query_returns_first_items :
    (∀ go items (query : String) limit, queryIsBlank query →
      fuzzysortSearch go items query limit = items.take (limit.getD MAX_SAFE_INTEGER)) ∧
    (∀ fu sc items (query : String) limit, queryIsBlank query →
      fuzzaldrinSearch fu sc items query limit = items.take (limit.getD MAX_SAFE_INTEGER)) ∧
    (∀ go items (query : String), queryIsBlank query →
      items.length ≤ MAX_SAFE_INTEGER →
      fuzzysortSearch go items query none = items) ∧
    (∀ fu sc items (query : String), queryIsBlank query →
      items.length ≤ MAX_SAFE_INTEGER →
      fuzzaldrinSearch fu sc items query none = items) := by
  refine ⟨fun go items query limit h => ?_, fun fu sc items query limit h => ?_,
    fun go items query h hlen => ?_, fun fu sc items query h hlen => ?_⟩
  · simp [fuzzysortSearch, h]
  · simp [fuzzaldrinSearch, h]
  · simp [fuzzysortSearch, h, List.take_of_length_le hlen]
  · simp [fuzzaldrinSearch, h, List.take_of_length_le hlen]

/-- Witness for `blank_query_returns_first_items`: a whitespace query over a
one-item list with no limit returns the list itself. -/
theorem blank_query_returns_first_items_witness :
    fuzzysortSearch (fun _ _ _ => [])
      [ { id := "a", label := "a", description := "", detail := "",
          type := SearchItemType.File, uri := some "file:///a.ts", range := none,
          command := none, score := none, activityScore := none, priority := none } ]
      " \t " none
    = [ { id := "a", label := "a", description := "", detail := "",
          type := SearchItemType.File, uri := some "file:///a.ts", range := none,
          command := none, score := none, activityScore := none, priority := none } ] :=
  blank_query_returns_first_items.2.2.1 (fun _ _ _ => []) _ " \t " (by decide) (by decide)

/-! ### C2 — ranking order: activity, then recency of activity, then score, then priority -/

/-- Item A of the claim's scenario: `activityScore = T1`, `score = 0.9`. -/
def rankItemA (t : ℚ) : SearchItem :=
  { id := "A", label := "A", description := "", detail := "",
    type := SearchItemType.Symbol, uri := none, range := none, command := none,
    score := some 0.9, activityScore := some t, priority := none }

/-- Item B of the claim's scenario: `activityScore = T2`, `score = 0.1`. -/
def rankItemB (t : ℚ) : SearchItem :=
  { id := "B", label := "B", description := "", detail := "",
    type := SearchItemType.Symbol, uri := none, range := none, command := none,
    score := some 0.1, activityScore := some t, priority := none }

/-- Item C of the claim's scenario: no `activityScore`, `score = 0.99`. -/
def rankItemC : SearchItem :=
  { id := "C", label := "C", description := "", detail := "",
    type := SearchItemType.Symbol, uri := none, range := none, command := none,
    score := some 0.99, activityScore := none, priority := none }

/-- C2: pairwise properties of the `sortResultsByPriority` comparator —
(1) an item with an `activityScore` sorts before any item without one;
(2) among two items with `activityScore`, the more recent (larger) timestamp
sorts first; (3) with no activity on either side, the higher score wins when
the difference exceeds the epsilon (a missing score losing to any present
score, as `-Infinity`), and within the epsilon band the higher priority wins;
and the scenario: for A (`activityScore = T1`, score 0.9),
B (`activityScore = T2 > T1`, score 0.1), C (no activity, score 0.99),
sorting `[A, B, C]` yields `[B, A, C]`. -/
theorem ranking_order_activity_recency_score_priority (t1 t2 : ℚ) (ht : t1 < t2) :
    (∀ a b : SearchItem, a.activityScore.isSome → b.activityScore = none →
      cmpItems a b < 0) ∧
    (∀ (a b : SearchItem) (ta tb : ℚ), a.activityScore = some ta →
      b.activityScore = some tb → tb < ta → cmpItems a b < 0) ∧
    (∀ (a b : SearchItem) (sa sb : ℚ), a.activityScore = none → b.activityScore = none →
      a.score = some sa → b.score = some sb → SCORE_EPSILON < |sa - sb| →
      (cmpItems a b < 0 ↔ sb < sa)) ∧
    (∀ a b : SearchItem, a.activityScore = none → b.activityScore = none →
      a.score.isSome → b.score = none → cmpItems a b < 0) ∧
    (∀ (a b : SearchItem) (sa sb : ℚ), a.activityScore = none → b.activityScore = none →
      a.score = some sa → b.score = some sb → |sa - sb| ≤ SCORE_EPSILON →
      effPriority b < effPriority a → cmpItems a b < 0) ∧
    sortResultsByPriority [rankItemA t1, rankItemB t2, rankItemC]
      = [rankItemB t2, rankItemA t1, rankItemC] := by
  refine ⟨fun a b ha hb => ?_, fun a b ta tb ha hb htab => ?_,
    fun a b sa sb ha hb hsa hsb heps => ?_, fun a b ha hb hsa hsb => ?_,
    fun a b sa sb ha hb hsa hsb heps hp => ?_, ?_⟩
  · simp [cmpItems, ha, hb]
  · have hne : tb ≠ ta := ne_of_lt htab
    have hne' : ta ≠ tb := ne_of_gt htab
    simp [cmpItems, ha, hb, hne, hne', htab, sub_neg]
  · simp [cmpItems, scoreThenPriority, ha, hb, hsa, hsb, heps, sub_neg]
  · obtain ⟨sa, hsa'⟩ := Option.isSome_iff_exists.mp hsa
    simp [cmpItems, scoreThenPriority, ha, hb, hsa', hsb]
  · have : ¬ (|sa - sb| > SCORE_EPSILON) := not_lt.mpr heps
    simp [cmpItems, scoreThenPriority, ha, hb, hsa, hsb, this, sub_neg, hp]
  · have hne : t2 ≠ t1 := ne_of_gt ht
    have h21 : t1 - t2 < 0 := sub_neg.mpr ht
    norm_num [sortResultsByPriority, sortInsert, cmpItems, scoreThenPriority,
      rankItemA, rankItemB, rankItemC, hne, h21, not_lt.mpr (le_of_lt ht)]

/-- Witness for `ranking_order_activity_recency_score_priority` at
`T1 = 1000 < T2 = 2000`. -/
theorem ranking_order_activity_recency_score_priority_witness :
    sortResultsByPriority [rankItemA 1000, rankItemB 2000, rankItemC]
      = [rankItemB 2000, rankItemA 1000, rankItemC] :=
  (ranking_order_activity_recency_score_priority 1000 2000 (by norm_num)).2.2.2.2.2

/-! ### C5 — recency boosting paths and the decay boundary -/

/-- C5: `boostRecentlyModifiedItems` computes
`recencyScore = max(0, 1 - age/1h)` — so a timestamp exactly one hour old
yields `0` and a timestamp of age `0` yields `1` — and applies the three
boost paths: a File item whose uri is in the recently-modified map gets
`score *= 1 + recency*weight`; a Symbol/Class item whose uri is in the map
gets `score *= 1 + recency*weight*0.8`; a Symbol/Class item with its own
`activityScore` gets `score *= 1 + recency*weight*1.5` followed by
`score += recency*0.4` (stated here for an item whose uri is not in the map,
so only the activity path fires).  Stored timestamps are JS-truthy
(`ts ≠ 0`), as `if (timestamp)` requires. -/
theorem boost_recency_paths :
    (∀ now : ℚ, recencyScore now (now - oneHour) = 0) ∧
    (∀ now : ℚ, recencyScore now now = 1) ∧
    (∀ (w now : ℚ) (recent : String → Option ℚ) (item : SearchItem) (u : String) (ts s : ℚ),
      item.type = SearchItemType.File → item.uri = some u →
      recent u = some ts → ts ≠ 0 → item.score = some s →
      (boostItem w now recent item).score = some (s * (1 + recencyScore now ts * w))) ∧
    (∀ (w now : ℚ) (recent : String → Option ℚ) (item : SearchItem) (u : String) (ts s : ℚ),
      (item.type = SearchItemType.Symbol ∨ item.type = SearchItemType.Class) →
      item.uri = some u → recent u = some ts → ts ≠ 0 → item.score = some s →
      item.activityScore = none →
      (boostItem w now recent item).score
        = some (s * (1 + recencyScore now ts * w * (8/10)))) ∧
    (∀ (w now : ℚ) (recent : String → Option ℚ) (item : SearchItem) (tsa s : ℚ),
      (item.type = SearchItemType.Symbol ∨ item.type = SearchItemType.Class) →
      item.activityScore = some tsa → item.score = some s →
      (item.uri.isSome → recent (item.uri.getD "") = none) →
      (boostItem w now recent item).score
        = some (s * (1 + recencyScore now tsa * w * (15/10)) + recencyScore now tsa * (4/10))) := by
  have hfs : (SearchItemType.File : String) ≠ SearchItemType.Symbol := by decide
  have hfc : (SearchItemType.File : String) ≠ SearchItemType.Class := by decide
  have hsf : (SearchItemType.Symbol : String) ≠ SearchItemType.File := by decide
  have hcf : (SearchItemType.Class : String) ≠ SearchItemType.File := by decide
  refine ⟨fun now => ?_, fun now => ?_, ?_, ?_, ?_⟩
  · have h : oneHour ≠ 0 := by norm_num [oneHour]
    simp [recencyScore, h]
  · simp [recencyScore]
  · rintro w now recent ⟨id, lab, desc, det, ty, uri, rng, cmd, sc, act, prio⟩ u ts s
      hty huri hrec hts hsc
    subst hty huri hsc
    simp [boostItem, hrec, hts, hfs, hfc]
  · rintro w now recent ⟨id, lab, desc, det, ty, uri, rng, cmd, sc, act, prio⟩ u ts s
      hty huri hrec hts hsc hact
    subst huri hsc hact
    rcases hty with hty | hty <;> subst hty <;>
      simp [boostItem, hrec, hts, hsf, hcf]
  · rintro w now recent ⟨id, lab, desc, det, ty, uri, rng, cmd, sc, act, prio⟩ tsa s
      hty hact hsc hnr
    subst hact hsc
    rcases hty with hty | hty <;> subst hty <;>
      rcases uri with _ | u <;>
        simp_all [boostItem, hsf, hcf]

/-- Witness for `boost_recency_paths`: the file path applied to a concrete
file item whose uri was modified 30 minutes ago (weight 1). -/
theorem boost_recency_paths_witness :
    (boostItem 1 7200000
      (fun u => if u = "file:///a.ts" then some 5400000 else none)
      { id := "file:file:///a.ts", label := "a.ts", description := "a.ts",
        detail := "/a.ts", type := SearchItemType.File, uri := some "file:///a.ts",
        range := none, command := none, score := some 2, activityScore := none,
        priority := none }).score
    = some (2 * (1 + recencyScore 7200000 5400000 * 1)) :=
  boost_recency_paths.2.2.1 1 7200000
    (fun u => if u = "file:///a.ts" then some 5400000 else none)
    { id := "file:file:///a.ts", label := "a.ts", description := "a.ts",
      detail := "/a.ts", type := SearchItemType.File, uri := some "file:///a.ts",
      range := none, command := none, score := some 2, activityScore := none,
      priority := none }
    "file:///a.ts" 5400000 2 rfl rfl (by decide) (by norm_num) rfl

/-! ### C3 — dedup-merge invariant -/

/-- Auxiliary: a key that occurs in the map is found by `find?`. -/
lemma find_isSome_of_mem_keys (m : List (String × SearchItem)) (k : String)
    (h : k ∈ m.map Prod.fst) : (m.find? (fun p => p.1 == k)).isSome := by
  rw [List.find?_isSome]
  obtain ⟨p, hp, hpk⟩ := List.mem_map.mp h
  exact ⟨p, hp, by simp [hpk]⟩

/-- Auxiliary: with the stored key already present, `dedupeInsert` keeps the
map unchanged (later duplicates are dropped). -/
lemma dedupeInsert_of_contains (m : List (String × SearchItem)) (x : SearchItem)
    (hc : (m.map Prod.fst).contains (getDeduplicationKey x) = true) :
    dedupeInsert m x = m := by
  simp only [dedupeInsert, hc, if_true]

/-- Auxiliary: with the stored key absent, `dedupeInsert` appends the new
entry. -/
lemma dedupeInsert_of_not_contains (m : List (String × SearchItem)) (x : SearchItem)
    (hc : ¬ ((m.map Prod.fst).contains (getDeduplicationKey x) = true)) :
    dedupeInsert m x = m ++ [(getDeduplicationKey x, x)] := by
  simp only [dedupeInsert, if_neg hc]

/-- Auxiliary: `dedupeInsert` preserves key-uniqueness of the map. -/
lemma dedupeInsert_keys_nodup (m : List (String × SearchItem)) (x : SearchItem)
    (h : (m.map Prod.fst).Nodup) : ((dedupeInsert m x).map Prod.fst).Nodup := by
  by_cases hc : (m.map Prod.fst).contains (getDeduplicationKey x) = true
  · rw [dedupeInsert_of_contains m x hc]
    exact h
  · have hnm : getDeduplicationKey x ∉ m.map Prod.fst := by simpa using hc
    rw [dedupeInsert_of_not_contains m x hc, List.map_append]
    rw [List.nodup_append]
    refine ⟨h, List.nodup_singleton _, fun a ha hb => ?_⟩
    simp only [List.map_cons, List.map_nil, List.mem_singleton] at hb
    exact hnm (hb ▸ ha)

/-- Auxiliary: folding a whole batch list through `dedupeInsert` preserves
key-uniqueness. -/
lemma foldl_dedupeInsert_keys_nodup (l : List SearchItem)
    (m : List (String × SearchItem)) (h : (m.map Prod.fst).Nodup) :
    ((l.foldl dedupeInsert m).map Prod.fst).Nodup := by
  induction l generalizing m with
  | nil => exact h
  | cons x xs ih => exact ih _ (dedupeInsert_keys_nodup m x h)

/-- Auxiliary: the entry stored for key `k` after folding a list of items
through `dedupeInsert` is the entry already stored in the accumulator if any,
and otherwise comes from the **first** item of the list whose deduplication
key is `k`. -/
lemma foldl_dedupeInsert_find (l : List SearchItem)
    (m : List (String × SearchItem)) (k : String) :
    (l.foldl dedupeInsert m).find? (fun p => p.1 == k)
      = (m.find? (fun p => p.1 == k)).or
          ((l.find? (fun it => getDeduplicationKey it == k)).map
            (fun it => (getDeduplicationKey it, it))) := by
  induction l generalizing m with
  | nil => simp
  | cons x xs ih =>
      rw [List.foldl_cons, ih]
      by_cases hk : getDeduplicationKey x = k
      · subst hk
        rw [List.find?_cons_of_pos _ (by simp)]
        by_cases hc :
            (m.map Prod.fst).contains (getDeduplicationKey x) = true
        · have hsome := find_isSome_of_mem_keys m (getDeduplicationKey x)
            (by simpa using hc)
          obtain ⟨p, hp⟩ := Option.isSome_iff_exists.mp hsome
          rw [dedupeInsert_of_contains m x hc, hp]
          simp [Option.or_some]
        · rw [dedupeInsert_of_not_contains m x hc, List.find?_append,
            Option.or_assoc]
          have hfind : [(getDeduplicationKey x, x)].find? (fun p => p.1 == getDeduplicationKey x)
              = some (getDeduplicationKey x, x) :=
            List.find?_cons_of_pos _ (by simp)
          rw [hfind]
          simp [Option.or_some]
      · have hkb : ¬ ((fun it => getDeduplicationKey it == k) x = true) := by simpa using hk
        rw [List.find?_cons_of_neg (p := fun it => getDeduplicationKey it == k) xs hkb]
        by_cases hc :
            (m.map Prod.fst).contains (getDeduplicationKey x) = true
        · rw [dedupeInsert_of_contains m x hc]
        · rw [dedupeInsert_of_not_contains m x hc, List.find?_append]
          have hbf : (getDeduplicationKey x == k) = false := by simpa using hk
          have hnone : [(getDeduplicationKey x, x)].find? (fun p => p.1 == k) = none := by
            simp [List.find?, hbf]
          rw [hnone, Option.or_none]

/-- C3 counterexample item: a `Class`-typed item with a uri and a range. -/
def dedupClassItem : SearchItem :=
  { id := "symbol:Foo:file:///a.ts:3:4", label := "Foo", description := "Class",
    detail := "/a.ts", type := SearchItemType.Class, uri := some "file:///a.ts",
    range := some ⟨⟨3, 4⟩, ⟨9, 0⟩⟩, command := none, score := none,
    activityScore := none, priority := some 100 }

/-- C3 counterexample item: the same program construct declared as `Symbol` —
same label, same uri, same range start, different declared type tag. -/
def dedupSymbolItem : SearchItem :=
  { id := "symbol:Foo:file:///a.ts:3:4", label := "Foo", description := "Method",
    detail := "/a.ts", type := SearchItemType.Symbol, uri := some "file:///a.ts",
    range := some ⟨⟨3, 4⟩, ⟨9, 0⟩⟩, command := none, score := none,
    activityScore := none, priority := some 90 }

/-- C3 counterexample: two items that both have `uri` and `range`, agree on
normalized label, uri and range start, but carry different declared type tags
(`class` vs `symbol`) do **not** collide to the same deduplication key — the
key prefix is `class:` for a Class-typed item and `symbol:` for every other
type — and a merge pass therefore keeps both of them.  This falsifies the
claim's "collide to the same key regardless of their declared type tag". -/
theorem dedup_key_distinguishes_class_tag :
    dedupClassItem.uri = dedupSymbolItem.uri ∧
    dedupClassItem.range = dedupSymbolItem.range ∧
    normalizeLabel dedupClassItem.label = normalizeLabel dedupSymbolItem.label ∧
    dedupClassItem.type ≠ dedupSymbolItem.type ∧
    getDeduplicationKey dedupClassItem ≠ getDeduplicationKey dedupSymbolItem ∧
    (mergePass [[dedupClassItem, dedupSymbolItem]]).length = 2 := by
  refine ⟨rfl, rfl, rfl, by decide, by decide, by decide⟩

/-- C3 (amended): after every merge pass (the streaming/final merges of
`refreshIndex` and the merge of `updateIndexFromProviders`, which run the
same dedup loop), the unified set holds at most one item per deduplication
key; the item kept for a key is the **first** item with that key in arrival
order; and two items that both have `uri` and `range` and agree on normalized
label, uri and range start collide to the same key **provided their type tags
agree on being `Class` or not** — the declared type influences the key only
through the `class:`/`symbol:` prefix (so e.g. a mislabeled `file`- or
`text`-typed cached item still collides with the `symbol`-typed one). -/
theorem merge_dedup_invariant :
    (∀ batches : List (List SearchItem),
      ((mergePass batches).map Prod.fst).Nodup) ∧
    (∀ (batches : List (List SearchItem)) (k : String),
      (mergePass batches).find? (fun p => p.1 == k)
        = (batches.flatten.find? (fun it => getDeduplicationKey it == k)).map
            (fun it => (getDeduplicationKey it, it))) ∧
    (∀ (i1 i2 : SearchItem) (u : String) (r1 r2 : ItemRange),
      i1.uri = some u → i2.uri = some u → i1.range = some r1 → i2.range = some r2 →
      normalizeLabel i1.label = normalizeLabel i2.label → r1.start = r2.start →
      (i1.type = SearchItemType.Class ↔ i2.type = SearchItemType.Class) →
      getDeduplicationKey i1 = getDeduplicationKey i2) := by
  have hpass : ∀ batches : List (List SearchItem),
      mergePass batches = batches.flatten.foldl dedupeInsert [] := by
    intro batches
    rw [mergePass, List.foldl_flatten]
  refine ⟨fun batches => ?_, fun batches k => ?_, ?_⟩
  · rw [hpass]
    exact foldl_dedupeInsert_keys_nodup _ [] (by simp)
  · rw [hpass, foldl_dedupeInsert_find]
    simp
  · rintro i1 i2 u r1 r2 h1u h2u h1r h2r hlab hstart hcls
    rw [getDeduplicationKey, getDeduplicationKey, h1u, h2u, h1r, h2r]
    by_cases hc : i1.type = SearchItemType.Class
    · simp only [hc, hcls.mp hc, if_true, hlab, hstart]
    · have hc2 : ¬ i2.type = SearchItemType.Class := fun h => hc (hcls.mpr h)
      simp only [hc, hc2, if_false, hlab, hstart]

/-- Witness for `merge_dedup_invariant`: the collision clause applied to a
mislabeled `file`-typed cached symbol and the `symbol`-typed item for the
same construct. -/
theorem merge_dedup_invariant_witness :
    getDeduplicationKey { dedupSymbolItem with type := SearchItemType.File }
      = getDeduplicationKey dedupSymbolItem :=
  merge_dedup_invariant.2.2 { dedupSymbolItem with type := SearchItemType.File }
    dedupSymbolItem "file:///a.ts" ⟨⟨3, 4⟩, ⟨9, 0⟩⟩ ⟨⟨3, 4⟩, ⟨9, 0⟩⟩
    rfl rfl rfl rfl rfl rfl (by decide)

/-! ### C1 — cache validation / invalidation policies -/

/-- Characterization (spec-shaped): a current file entry is served from the
file-index cache iff the cached manifest has its exact mtime and a serialized
item for its uri exists. -/
def fileEntryReused (c : FileIndexCache) (e : ManifestEntry) : Bool :=
  manifestGet c.manifest e.uri == some e.mtime && (cachedItemGet c.items e.uri).isSome

/-- Characterization (spec-shaped): the file items reused from cache, in
current-entry order. -/
def fileUnchangedOf (c : FileIndexCache) (cur : List ManifestEntry) : List FileSearchItem :=
  (cur.filter (fun e => fileEntryReused c e)).filterMap
    (fun e => (cachedItemGet c.items e.uri).map deserializeFileItem)

/-- Characterization (spec-shaped): the uris the file provider re-indexes —
exactly the current entries **not** served from cache. -/
def fileStaleOf (c : FileIndexCache) (cur : List ManifestEntry) : List String :=
  (cur.filter (fun e => ! fileEntryReused c e)).map ManifestEntry.uri

/-- Auxiliary: the file provider's partition loop, run from any accumulator,
appends exactly the reused items and the stale uris. -/
lemma fileCacheStep_foldl (c : FileIndexCache) (cur : List ManifestEntry) :
    ∀ acc : FileCachePartition,
      cur.foldl (fileCacheStep c) acc
        = { unchanged := acc.unchanged ++ fileUnchangedOf c cur
            toIndex := acc.toIndex ++ fileStaleOf c cur } := by
  induction cur with
  | nil => intro acc; simp [fileUnchangedOf, fileStaleOf]
  | cons e rest ih =>
      intro acc
      rw [List.foldl_cons, ih]
      cases hm : manifestGet c.manifest e.uri with
      | none =>
          have hr : fileEntryReused c e = false := by
            simp [fileEntryReused, hm]
          simp [fileCacheStep, hm, fileUnchangedOf, fileStaleOf, hr]
      | some cm =>
          by_cases hcm : cm = e.mtime
          · subst hcm
            cases hi : cachedItemGet c.items e.uri with
            | none =>
                have hr : fileEntryReused c e = false := by
                  simp [fileEntryReused, hm, hi]
                simp [fileCacheStep, hm, hi, fileUnchangedOf, fileStaleOf, hr]
            | some s =>
                have hr : fileEntryReused c e = true := by
                  simp [fileEntryReused, hm, hi]
                simp [fileCacheStep, hm, hi, fileUnchangedOf, fileStaleOf, hr]
          · have hr : fileEntryReused c e = false := by
              simp [fileEntryReused, hm, hcm]
            simp [fileCacheStep, hm, hcm, fileUnchangedOf, fileStaleOf, hr]

/-- Characterization (spec-shaped): a current file's per-file entry in the
document-symbols cache is fresh iff it exists with the exact current mtime. -/
def docEntryFresh (c : DocumentSymbolsCache) (e : ManifestEntry) : Bool :=
  match c.files.lookup e.uri with
  | some entry => entry.mtime == e.mtime
  | none => false

/-- Characterization (spec-shaped): the symbols served from the
document-symbols cache — the concatenated deserialized symbol lists of the
fresh entries, in current-entry order. -/
def docFromCacheOf (c : DocumentSymbolsCache) (cur : List ManifestEntry) :
    List SymbolSearchItem :=
  (((cur.filter (fun e => docEntryFresh c e)).filterMap (fun e => c.files.lookup e.uri)).map
    (fun entry => entry.symbols.map docDeserializeSymbolItem)).flatten

/-- Characterization (spec-shaped): the `{uri, mtime}` pairs the
document-symbol provider re-indexes — exactly the non-fresh current files. -/
def docStaleOf (c : DocumentSymbolsCache) (cur : List ManifestEntry) :
    List (String × Nat) :=
  (cur.filter (fun e => ! docEntryFresh c e)).map (fun e => (e.uri, e.mtime))

/-- Auxiliary: the document-symbol provider's partition loop, run from any
accumulator, appends exactly the fresh entries' symbols and the stale pairs. -/
lemma docCacheStep_foldl (c : DocumentSymbolsCache) (cur : List ManifestEntry) :
    ∀ acc : DocCachePartition,
      cur.foldl (docCacheStep c) acc
        = { fromCacheItems := acc.fromCacheItems ++ docFromCacheOf c cur
            fromCacheCount := acc.fromCacheCount + cur.countP (fun e => docEntryFresh c e)
            toIndex := acc.toIndex ++ docStaleOf c cur } := by
  induction cur with
  | nil => intro acc; simp [docFromCacheOf, docStaleOf]
  | cons e rest ih =>
      intro acc
      rw [List.foldl_cons, ih]
      cases hl : c.files.lookup e.uri with
      | none =>
          have hf : docEntryFresh c e = false := by
            simp [docEntryFresh, hl]
          simp [docCacheStep, hl, docFromCacheOf, docStaleOf, hf, List.countP_cons]
      | some entry =>
          by_cases hmt : entry.mtime = e.mtime
          · have hf : docEntryFresh c e = true := by
              simp [docEntryFresh, hl, hmt]
            have hcond : entry.mtime = e.mtime ∧ entry.symbols.length ≥ 0 :=
              ⟨hmt, Nat.zero_le _⟩
            simp [docCacheStep, hl, hcond, docFromCacheOf, docStaleOf, hf,
              List.countP_cons, Nat.add_comm, Nat.add_assoc, Nat.add_left_comm]
          · have hf : docEntryFresh c e = false := by
              simp [docEntryFresh, hl, hmt]
            have hcond : ¬ (entry.mtime = e.mtime ∧ entry.symbols.length ≥ 0) := by
              simp [hmt]
            simp [docCacheStep, hl, hmt, hcond, docFromCacheOf, docStaleOf, hf, List.countP_cons]

/-- C1 counterexample cache: a valid file-index cache for two files `a.ts`
(mtime 100) and `b.ts` (mtime 200). -/
def fileCacheEx : FileIndexCache :=
  { version := 1
    workspaceFingerprint := "file:///ws"
    manifest := [⟨"file:///ws/a.ts", 100⟩, ⟨"file:///ws/b.ts", 200⟩]
    items :=
      [ { id := "file:file:///ws/a.ts", label := "a.ts", description := "a.ts",
          detail := "/ws/a.ts", type := "file", uri := "file:///ws/a.ts" },
        { id := "file:file:///ws/b.ts", label := "b.ts", description := "b.ts",
          detail := "/ws/b.ts", type := "file", uri := "file:///ws/b.ts" } ] }

/-- C1 counterexample: one single file's mtime changed (`b.ts`: 200 → 201)
does **not** invalidate the entire file-index cache and does not trigger a
full re-index: `refreshFromCacheOrFull` still uses the cache (returns
`some _`, not the `none` that sends the caller to `fullRefresh`), reuses the
cached `a.ts` item, and re-indexes only `b.ts`.  This falsifies the claim
that for the file-index manifest-list format "any single file whose current
mtime differs from the cached manifest mtime invalidates the entire cache
for that provider and triggers a full re-index". -/
theorem file_cache_partial_mismatch_still_used :
    fileRefreshFromCacheOrFull (some fileCacheEx) "file:///ws"
        [⟨"file:///ws/a.ts", 100⟩, ⟨"file:///ws/b.ts", 201⟩]
      = some
          { unchanged :=
              [ { id := "file:file:///ws/a.ts", label := "a.ts", description := "a.ts",
                  detail := "/ws/a.ts", type := "file", uri := "file:///ws/a.ts",
                  relativePath := none, score := none, activityScore := none,
                  priority := none } ]
            toIndex := ["file:///ws/b.ts"] } ∧
    fileRefreshFromCacheOrFull (some fileCacheEx) "file:///ws"
        [⟨"file:///ws/a.ts", 100⟩, ⟨"file:///ws/b.ts", 201⟩] ≠ none := by
  refine ⟨by decide, by decide⟩

/-- C1 (amended): cache validation/invalidation per provider —
* (gates) every loader treats an absent cache, a version mismatch or a
  workspace-fingerprint mismatch as a cache miss (`none`, i.e. full
  re-index);
* (workspace-symbols, manifest-list) the cache is used only when the current
  manifest has the same length and **every** current file's mtime equals the
  cached manifest mtime — any single mismatch rejects the whole cache and
  causes a full re-index — and on success the whole cached item list is used;
* (file-index, also manifest-list) a valid version+fingerprint cache is
  **always used**: entries with matching mtime are reused and only
  stale/missing files are re-indexed — a single mtime change does *not*
  invalidate the cache;
* (document-symbols, per-file map) same per-file tolerance: fresh per-file
  entries are deserialized from cache and only stale files are re-indexed. -/
theorem cache_invalidation_policies :
    (∀ (fp : String) (cur : List ManifestEntry),
      wsTryLoadFromCache none fp cur = none ∧
      fileRefreshFromCacheOrFull none fp cur = none ∧
      docRefreshFromCacheOrFull none fp cur = none) ∧
    (∀ (c : WorkspaceSymbolsCache) (fp : String) (cur : List ManifestEntry),
      c.version ≠ CACHE_VERSION ∨ c.workspaceFingerprint ≠ fp →
      wsTryLoadFromCache (some c) fp cur = none) ∧
    (∀ (c : FileIndexCache) (fp : String) (cur : List ManifestEntry),
      c.version ≠ CACHE_VERSION ∨ c.workspaceFingerprint ≠ fp →
      fileRefreshFromCacheOrFull (some c) fp cur = none) ∧
    (∀ (c : DocumentSymbolsCache) (fp : String) (cur : List ManifestEntry),
      c.version ≠ CACHE_VERSION ∨ c.workspaceFingerprint ≠ fp →
      docRefreshFromCacheOrFull (some c) fp cur = none) ∧
    (∀ (c : WorkspaceSymbolsCache) (fp : String) (cur : List ManifestEntry)
        (e : ManifestEntry), e ∈ cur → manifestGet c.manifest e.uri ≠ some e.mtime →
      wsTryLoadFromCache (some c) fp cur = none) ∧
    (∀ (c : WorkspaceSymbolsCache) (fp : String) (cur : List ManifestEntry)
        (items : List SymbolSearchItem),
      wsTryLoadFromCache (some c) fp cur = some items →
      items = c.items.map wsDeserializeSymbolItem ∧
      cur.length = c.manifest.length ∧
      ∀ e ∈ cur, manifestGet c.manifest e.uri = some e.mtime) ∧
    (∀ (c : FileIndexCache) (fp : String) (cur : List ManifestEntry),
      c.version = CACHE_VERSION → c.workspaceFingerprint = fp →
      fileRefreshFromCacheOrFull (some c) fp cur
        = some { unchanged := fileUnchangedOf c cur, toIndex := fileStaleOf c cur }) ∧
    (∀ (c : DocumentSymbolsCache) (fp : String) (cur : List ManifestEntry),
      c.version = CACHE_VERSION → c.workspaceFingerprint = fp →
      docRefreshFromCacheOrFull (some c) fp cur
        = some { fromCacheItems := docFromCacheOf c cur
                 fromCacheCount := cur.countP (fun e => docEntryFresh c e)
                 toIndex := docStaleOf c cur }) := by
  refine ⟨fun fp cur => ⟨rfl, rfl, rfl⟩, fun c fp cur h => ?_, fun c fp cur h => ?_,
    fun c fp cur h => ?_, fun c fp cur e he hne => ?_, fun c fp cur items h => ?_,
    fun c fp cur hv hf => ?_, fun c fp cur hv hf => ?_⟩
  · simp [wsTryLoadFromCache, h]
  · simp [fileRefreshFromCacheOrFull, h]
  · simp [docRefreshFromCacheOrFull, h]
  · rw [wsTryLoadFromCache]
    by_cases hg : c.version ≠ CACHE_VERSION ∨ c.workspaceFingerprint ≠ fp
    · rw [if_pos hg]
    · rw [if_neg hg]
      by_cases hlen : cur.length ≠ c.manifest.length
      · rw [if_pos hlen]
      · rw [if_neg hlen, if_neg]
        intro hall
        exact hne (by simpa using List.all_eq_true.mp hall e he)
  · rw [wsTryLoadFromCache] at h
    by_cases hg : c.version ≠ CACHE_VERSION ∨ c.workspaceFingerprint ≠ fp
    · rw [if_pos hg] at h
      exact absurd h (by simp)
    · rw [if_neg hg] at h
      by_cases hlen : cur.length ≠ c.manifest.length
      · rw [if_pos hlen] at h
        exact absurd h (by simp)
      · rw [if_neg hlen] at h
        by_cases hall : cur.all (fun e => manifestGet c.manifest e.uri = some e.mtime)
        · rw [if_pos hall] at h
          refine ⟨by injection h with h; exact h.symm, by omega, fun e he => ?_⟩
          simpa using List.all_eq_true.mp hall e he
        · rw [if_neg hall] at h
          exact absurd h (by simp)
  · rw [fileRefreshFromCacheOrFull, if_neg (by simp [hv, hf]), fileCacheStep_foldl]
    simp
  · rw [docRefreshFromCacheOrFull, if_neg (by simp [hv, hf]), docCacheStep_foldl]
    simp

/-- Witness for `cache_invalidation_policies`: the workspace-symbols clause
applied to a cache whose single manifest entry disagrees with the current
mtime, and the file-index clause applied to the two-file example. -/
theorem cache_invalidation_policies_witness :
    wsTryLoadFromCache
      (some { version := 1, workspaceFingerprint := "file:///ws",
              manifest := [⟨"file:///ws/a.ts", 100⟩], items := [] })
      "file:///ws" [⟨"file:///ws/a.ts", 101⟩] = none ∧
    fileRefreshFromCacheOrFull (some fileCacheEx) "file:///ws"
        [⟨"file:///ws/a.ts", 100⟩, ⟨"file:///ws/b.ts", 201⟩]
      = some
          { unchanged :=
              fileUnchangedOf fileCacheEx
                [⟨"file:///ws/a.ts", 100⟩, ⟨"file:///ws/b.ts", 201⟩]
            toIndex :=
              fileStaleOf fileCacheEx
                [⟨"file:///ws/a.ts", 100⟩, ⟨"file:///ws/b.ts", 201⟩] } :=
  ⟨cache_invalidation_policies.2.2.2.2.1
      { version := 1, workspaceFingerprint := "file:///ws",
        manifest := [⟨"file:///ws/a.ts", 100⟩], items := [] }
      "file:///ws" [⟨"file:///ws/a.ts", 101⟩] ⟨"file:///ws/a.ts", 101⟩
      (by decide) (by decide),
    cache_invalidation_policies.2.2.2.2.2.2.1 fileCacheEx "file:///ws"
      [⟨"file:///ws/a.ts", 100⟩, ⟨"file:///ws/b.ts", 201⟩] rfl rfl⟩

/-- Invariant of the two-non-forced-callers scenario: exactly one provider
pass ever starts (the one in flight at the start), the only promise is `0`,
and a caller can only be `done` after promise `0` resolved. -/
def TwoNonForcedInv (s : RefreshSys) : Prop :=
  s.passes = 1 ∧ s.nextId = 1 ∧
  ((s.running = [0] ∧ s.resolved = []) ∨ (s.running = [] ∧ s.resolved = [0])) ∧
  s.tasks.length = 2 ∧
  (∀ t ∈ s.tasks,
    t = CallerState.awaitOwn 0 ∨ t = CallerState.awaitShared 0 ∨ t = CallerState.done) ∧
  (∀ t ∈ s.tasks, t = CallerState.done → 0 ∈ s.resolved)

/-- Auxiliary: every scheduler action preserves `TwoNonForcedInv`. -/
lemma twoNonForcedInv_step (s : RefreshSys) (h : TwoNonForcedInv s) (a : RefreshAct) :
    TwoNonForcedInv (stepAct s a) := by
  obtain ⟨hp, hn, hrun, hlen, hstates, hdone⟩ := h
  cases a with
  | finish p =>
      rw [stepAct]
      by_cases hmem : p ∈ s.running
      · rw [if_pos hmem]
        rcases hrun with ⟨hr, hv⟩ | ⟨hr, hv⟩
        · rw [hr] at hmem
          have hp0 : p = 0 := by simpa using hmem
          subst hp0
          refine ⟨hp, hn, Or.inr ⟨by rw [hr]; rfl, by rw [hv]⟩, hlen, hstates,
            fun t ht _ => by simp⟩
        · rw [hr] at hmem
          simp at hmem
      · rw [if_neg hmem]
        exact ⟨hp, hn, hrun, hlen, hstates, hdone⟩
  | run i =>
      cases hget : s.tasks.get? i with
      | none =>
          simp only [stepAct, stepTask, hget]
          exact ⟨hp, hn, hrun, hlen, hstates, hdone⟩
      | some t =>
          have htmem : t ∈ s.tasks := List.get?_mem hget
          rcases hstates t htmem with ht | ht | ht <;> subst ht
          · by_cases hres : 0 ∈ s.resolved
            · simp only [stepAct, stepTask, hget, if_pos hres]
              refine ⟨hp, hn, hrun, by simpa [setTask] using hlen, fun t' ht' => ?_,
                fun t' ht' htd => hres⟩
              rcases List.mem_or_eq_of_mem_set ht' with hmem | heq
              · exact hstates t' hmem
              · exact Or.inr (Or.inr heq)
            · simp only [stepAct, stepTask, hget, if_neg hres]
              exact ⟨hp, hn, hrun, hlen, hstates, hdone⟩
          · by_cases hres : 0 ∈ s.resolved
            · simp only [stepAct, stepTask, hget, if_pos hres]
              refine ⟨hp, hn, hrun, by simpa [setTask] using hlen, fun t' ht' => ?_,
                fun t' ht' htd => hres⟩
              rcases List.mem_or_eq_of_mem_set ht' with hmem | heq
              · exact hstates t' hmem
              · exact Or.inr (Or.inr heq)
            · simp only [stepAct, stepTask, hget, if_neg hres]
              exact ⟨hp, hn, hrun, hlen, hstates, hdone⟩
          · simp only [stepAct, stepTask, hget]
            exact ⟨hp, hn, hrun, hlen, hstates, hdone⟩

/-- Auxiliary: `TwoNonForcedInv` holds along every schedule. -/
lemma twoNonForcedInv_trace (acts : List RefreshAct) :
    ∀ s : RefreshSys, TwoNonForcedInv s → TwoNonForcedInv (execTrace s acts) := by
  induction acts with
  | nil => exact fun s h => h
  | cons a rest ih =>
      intro s h
      exact ih _ (twoNonForcedInv_step s h a)

/-- Invariant of the "one refresh in flight + one forced caller" scenario.
Phase 1: only pass 1 has started, the forced caller still awaits promise `0`.
Phase 2: the forced caller has started pass 2 (promise `1`) — which it could
only do after promise `0` resolved — and at most promise `1` is in flight. -/
def ForcedInv (s : RefreshSys) : Prop :=
  s.tasks.length = 2 ∧
  ((s.passes = 1 ∧ s.nextId = 1 ∧
      ((s.running = [0] ∧ s.resolved = []) ∨ (s.running = [] ∧ s.resolved = [0])) ∧
      s.tasks.get? 1 = some (CallerState.awaitRestart 0) ∧
      (s.tasks.get? 0 = some (CallerState.awaitOwn 0) ∨
        (s.tasks.get? 0 = some CallerState.done ∧ 0 ∈ s.resolved))) ∨
    (s.passes = 2 ∧ s.nextId = 2 ∧ 0 ∈ s.resolved ∧
      ((s.running = [1] ∧ s.resolved = [0]) ∨ (s.running = [] ∧ s.resolved = [1, 0])) ∧
      (s.tasks.get? 1 = some (CallerState.awaitOwn 1) ∨
        (s.tasks.get? 1 = some CallerState.done ∧ 1 ∈ s.resolved)) ∧
      (s.tasks.get? 0 = some (CallerState.awaitOwn 0) ∨
        s.tasks.get? 0 = some CallerState.done)))

/-- Auxiliary: replacing index `i` (which holds some value) stores the new
value at `i`. -/
lemma get?_set_self {α : Type} (l : List α) (i : Nat) (a b : α)
    (h : l.get? i = some a) : (l.set i b).get? i = some b := by
  rw [List.get?_set_eq, h]
  rfl

/-- Auxiliary: every scheduler action preserves `ForcedInv`. -/
lemma forcedInv_step (s : RefreshSys) (h : ForcedInv s) (a : RefreshAct) :
    ForcedInv (stepAct s a) := by
  obtain ⟨hlen, hphase⟩ := h
  cases a with
  | finish p =>
      rw [stepAct]
      by_cases hmem : p ∈ s.running
      · rw [if_pos hmem]
        rcases hphase with ⟨hp, hn, hrv, h1, h0⟩ | ⟨hp, hn, hres, hrv, h1, h0⟩
        · rcases hrv with ⟨hr, hv⟩ | ⟨hr, hv⟩
          · have hp0 : p = 0 := by rw [hr] at hmem; simpa using hmem
            subst hp0
            refine ⟨hlen, Or.inl ⟨hp, hn, Or.inr ⟨by rw [hr]; rfl, by rw [hv]⟩, h1, ?_⟩⟩
            rcases h0 with h0 | ⟨h0, _⟩
            · exact Or.inl h0
            · exact Or.inr ⟨h0, by simp⟩
          · rw [hr] at hmem; simp at hmem
        · rcases hrv with ⟨hr, hv⟩ | ⟨hr, hv⟩
          · have hp1 : p = 1 := by rw [hr] at hmem; simpa using hmem
            subst hp1
            refine ⟨hlen, Or.inr ⟨hp, hn, by rw [hv]; simp,
              Or.inr ⟨by rw [hr]; rfl, by rw [hv]⟩, ?_, h0⟩⟩
            rcases h1 with h1 | ⟨h1, _⟩
            · exact Or.inl h1
            · exact Or.inr ⟨h1, by simp⟩
          · rw [hr] at hmem; simp at hmem
      · rw [if_neg hmem]
        exact ⟨hlen, hphase⟩
  | run i =>
      by_cases hi : i < 2
      · interval_cases i
        · -- caller 0: the owner of promise 0
          rcases hphase with ⟨hp, hn, hrv, h1, h0⟩ | ⟨hp, hn, hres, hrv, h1, h0⟩
          · rcases h0 with h0 | ⟨h0, h0r⟩
            · by_cases hres : 0 ∈ s.resolved
              · simp only [stepAct, stepTask, h0, if_pos hres]
                refine ⟨by simpa [setTask] using hlen,
                  Or.inl ⟨hp, hn, hrv, ?_, Or.inr ⟨?_, hres⟩⟩⟩
                · simpa [setTask] using
                    (List.get?_set_ne (m := 0) (n := 1) CallerState.done s.tasks (by decide)).trans h1
                · simpa [setTask] using
                    get?_set_self s.tasks 0 (CallerState.awaitOwn 0) CallerState.done h0
              · simp only [stepAct, stepTask, h0, if_neg hres]
                exact ⟨hlen, Or.inl ⟨hp, hn, hrv, h1, Or.inl h0⟩⟩
            · simp only [stepAct, stepTask, h0]
              exact ⟨hlen, Or.inl ⟨hp, hn, hrv, h1, Or.inr ⟨h0, h0r⟩⟩⟩
          · rcases h0 with h0 | h0
            · simp only [stepAct, stepTask, h0, if_pos hres]
              refine ⟨by simpa [setTask] using hlen,
                Or.inr ⟨hp, hn, hres, hrv, ?_, Or.inr ?_⟩⟩
              · rcases h1 with h1 | ⟨h1, h1r⟩
                · exact Or.inl (by simpa [setTask] using
                    (List.get?_set_ne (m := 0) (n := 1) CallerState.done s.tasks (by decide)).trans h1)
                · exact Or.inr ⟨by simpa [setTask] using
                    (List.get?_set_ne (m := 0) (n := 1) CallerState.done s.tasks (by decide)).trans h1, h1r⟩
              · simpa [setTask] using
                  get?_set_self s.tasks 0 (CallerState.awaitOwn 0) CallerState.done h0
            · simp only [stepAct, stepTask, h0]
              exact ⟨hlen, Or.inr ⟨hp, hn, hres, hrv, h1, Or.inr h0⟩⟩
        · -- caller 1: the forced caller
          rcases hphase with ⟨hp, hn, hrv, h1, h0⟩ | ⟨hp, hn, hres, hrv, h1, h0⟩
          · by_cases hres : 0 ∈ s.resolved
            · have hrv' : s.running = [] ∧ s.resolved = [0] := by
                rcases hrv with ⟨hr, hv⟩ | hrv
                · rw [hv] at hres; simp at hres
                · exact hrv
              simp only [stepAct, stepTask, h1, if_pos hres, spawnRefresh, hn]
              refine ⟨by simpa [setTask] using hlen,
                Or.inr ⟨by simp [setTask, hp], by simp [setTask, hn],
                  by simpa [setTask] using hres,
                  Or.inl ⟨by simp [setTask, hrv'.1], by simp [setTask, hrv'.2]⟩,
                  Or.inl ?_, ?_⟩⟩
              · simpa [setTask] using
                  get?_set_self s.tasks 1 (CallerState.awaitRestart 0)
                    (CallerState.awaitOwn 1) h1
              · rcases h0 with h0 | ⟨h0, _⟩
                · exact Or.inl (by simpa [setTask] using
                    (List.get?_set_ne (m := 1) (n := 0) (CallerState.awaitOwn 1) s.tasks (by decide)).trans h0)
                · exact Or.inr (by simpa [setTask] using
                    (List.get?_set_ne (m := 1) (n := 0) (CallerState.awaitOwn 1) s.tasks (by decide)).trans h0)
            · simp only [stepAct, stepTask, h1, if_neg hres]
              exact ⟨hlen, Or.inl ⟨hp, hn, hrv, h1, h0⟩⟩
          · rcases h1 with h1 | ⟨h1, h1r⟩
            · by_cases hres1 : 1 ∈ s.resolved
              · simp only [stepAct, stepTask, h1, if_pos hres1]
                refine ⟨by simpa [setTask] using hlen,
                  Or.inr ⟨hp, hn, hres, hrv, Or.inr ⟨?_, hres1⟩, ?_⟩⟩
                · simpa [setTask] using
                    get?_set_self s.tasks 1 (CallerState.awaitOwn 1) CallerState.done h1
                · rcases h0 with h0 | h0
                  · exact Or.inl (by simpa [setTask] using
                      (List.get?_set_ne (m := 1) (n := 0) CallerState.done s.tasks (by decide)).trans h0)
                  · exact Or.inr (by simpa [setTask] using
                      (List.get?_set_ne (m := 1) (n := 0) CallerState.done s.tasks (by decide)).trans h0)
              · simp only [stepAct, stepTask, h1, if_neg hres1]
                exact ⟨hlen, Or.inr ⟨hp, hn, hres, hrv, Or.inl h1, h0⟩⟩
            · simp only [stepAct, stepTask, h1]
              exact ⟨hlen, Or.inr ⟨hp, hn, hres, hrv, Or.inr ⟨h1, h1r⟩, h0⟩⟩
      · have hnone : s.tasks.get? i = none := List.get?_eq_none.mpr (by omega)
        simp only [stepAct, stepTask, hnone]
        exact ⟨hlen, hphase⟩

/-- Auxiliary: `ForcedInv` holds along every schedule. -/
lemma forcedInv_trace (acts : List RefreshAct) :
    ∀ s : RefreshSys, ForcedInv s → ForcedInv (execTrace s acts) := by
  induction acts with
  | nil => exact fun s h => h
  | cons a rest ih =>
      intro s h
      exact ih _ (forcedInv_step s h a)

/-- C6 counterexample: one refresh is in flight (promise 0) and **two**
forced `refreshIndex(true)` calls were issued during it
(`twoForcedDuringFlightInit`).  Schedule: the in-flight refresh completes,
then each forced caller resumes.  Each one nulls the shared field and starts
its own new refresh without awaiting the other's, so refreshes `1` and `2`
are both unresolved — two full refreshes running concurrently.  This
falsifies "refreshIndex never runs two full refreshes concurrently": the
forced path re-checks nothing after its `await`, so it only guards against
the refresh it originally observed. -/
theorem two_forced_refreshes_run_concurrently :
    (execTrace twoForcedDuringFlightInit
        [RefreshAct.finish 0, RefreshAct.run 1, RefreshAct.run 2]).running = [2, 1] ∧
    (execTrace twoForcedDuringFlightInit
        [RefreshAct.finish 0, RefreshAct.run 1, RefreshAct.run 2]).running.length = 2 :=
  ⟨by decide, by decide⟩

/-- C6 (amended): under the cooperative event-loop semantics —
* two non-forced `refreshIndex()` calls issued concurrently (the second while
  the first's refresh is in flight) never start a second provider pass, and
  both callers can only have resolved after the shared refresh completed;
* a single forced call issued during an in-flight refresh keeps at most one
  refresh execution in flight at any point, starts its new pass (the second
  overall) only after the in-flight promise resolved, and completes only
  after having started exactly that one new pass, whose promise resolved.

(The unqualified "never runs two full refreshes concurrently" is refuted by
`two_forced_refreshes_run_concurrently`: with two forced calls pending on the
same in-flight refresh, their restarted refreshes overlap.) -/
theorem refresh_single_flight_collapse :
    (∀ acts : List RefreshAct, (execTrace twoNonForcedInit acts).passes = 1) ∧
    (∀ acts : List RefreshAct,
      (∀ t ∈ (execTrace twoNonForcedInit acts).tasks, t = CallerState.done) →
      0 ∈ (execTrace twoNonForcedInit acts).resolved) ∧
    (∀ acts : List RefreshAct,
      (execTrace forcedDuringFlightInit acts).passes ≤ 2 ∧
      (execTrace forcedDuringFlightInit acts).running.length ≤ 1) ∧
    (∀ acts : List RefreshAct,
      (execTrace forcedDuringFlightInit acts).passes = 2 →
      0 ∈ (execTrace forcedDuringFlightInit acts).resolved) ∧
    (∀ acts : List RefreshAct,
      (execTrace forcedDuringFlightInit acts).tasks.get? 1 = some CallerState.done →
      (execTrace forcedDuringFlightInit acts).passes = 2 ∧
      1 ∈ (execTrace forcedDuringFlightInit acts).resolved) := by
  have hinit : TwoNonForcedInv twoNonForcedInit := by
    refine ⟨rfl, rfl, Or.inl ⟨rfl, rfl⟩, rfl, ?_, ?_⟩ <;> decide
  have hfinit : ForcedInv forcedDuringFlightInit := by
    exact ⟨rfl, Or.inl ⟨rfl, rfl, Or.inl ⟨rfl, rfl⟩, rfl, Or.inl rfl⟩⟩
  refine ⟨fun acts => ?_, fun acts hall => ?_, fun acts => ?_, fun acts hp2 => ?_,
    fun acts h1d => ?_⟩
  · exact (twoNonForcedInv_trace acts _ hinit).1
  · obtain ⟨_, _, _, hlen, _, hdone⟩ := twoNonForcedInv_trace acts _ hinit
    have hne : (execTrace twoNonForcedInit acts).tasks ≠ [] := by
      intro h
      rw [h] at hlen
      simp at hlen
    exact hdone _ (List.head_mem hne) (hall _ (List.head_mem hne))
  · obtain ⟨hlen, hphase⟩ := forcedInv_trace acts _ hfinit
    rcases hphase with ⟨hp, _, hrv, _, _⟩ | ⟨hp, _, _, hrv, _, _⟩
    · refine ⟨by omega, ?_⟩
      rcases hrv with ⟨hr, _⟩ | ⟨hr, _⟩ <;> simp [hr]
    · refine ⟨by omega, ?_⟩
      rcases hrv with ⟨hr, _⟩ | ⟨hr, _⟩ <;> simp [hr]
  · obtain ⟨hlen, hphase⟩ := forcedInv_trace acts _ hfinit
    rcases hphase with ⟨hp, _, _, _, _⟩ | ⟨_, _, hres, _, _, _⟩
    · omega
    · exact hres
  · obtain ⟨hlen, hphase⟩ := forcedInv_trace acts _ hfinit
    rcases hphase with ⟨_, _, _, h1, _⟩ | ⟨hp, _, _, _, h1, _⟩
    · rw [h1d] at h1
      exact absurd h1 (by simp)
    · rcases h1 with h1 | ⟨_, h1r⟩
      · rw [h1d] at h1
        exact absurd h1 (by simp)
      · exact ⟨hp, h1r⟩

/-- Witness for `refresh_single_flight_collapse`: a complete schedule of the
two-non-forced scenario (refresh completes, then both callers resume) ends
with both callers done, so the shared refresh must have resolved. -/
theorem refresh_single_flight_collapse_witness :
    0 ∈ (execTrace twoNonForcedInit
      [RefreshAct.finish 0, RefreshAct.run 0, RefreshAct.run 1]).resolved :=
  refresh_single_flight_collapse.2.1
    [RefreshAct.finish 0, RefreshAct.run 0, RefreshAct.run 1] (by decide)
